import Mathlib

/-!
Shallow embedding of the spending-analyzer dashboard (src/app.py).

The program keeps two SQLite tables, transactions (append-only) and
removed_merchants (a set of description strings), auto-categorizes
transaction descriptions by first-match keyword lookup, and derives
dashboard aggregates (top merchants, monthly trend, merchant search)
from the stored data.  Dates are stored as normalized YYYY-MM-DD text
or null when unparseable; amounts are modelled as signed integers in
exact currency units; pandas NaN cells are modelled as Option.none.
-/

/-- Transaction record as stored in the transactions table of app.py
(columns id, date, description, category, amount; the id is assigned
by SQLite as an INTEGER PRIMARY KEY).  The date field holds the
normalized date text produced by ingestion, or none for an
unparseable date (stored as null).  The amount column is a signed
decimal currency value; it is modelled as a signed integer count of
exact currency units (for instance cents), on which the float sums of
the program are exact; only the search average divides, and that
quotient is taken in the rationals below. -/
structure Txn where
  id : Nat
  date : Option String
  description : String
  category : String
  amount : ℤ
deriving DecidableEq

/-- State of the SQLite database of app.py: the transactions table in
rowid (insertion) order and the removed_merchants table as a list of
distinct merchant strings in insertion order. -/
structure Store where
  txns : List Txn
  removed : List String
deriving DecidableEq

/-- Containment of pat as a contiguous sublist of hay, modelling the
Python substring operator (the `in` operator on str). -/
def listContains (hay pat : List Char) : Bool :=
  (List.range (hay.length + 1)).any (fun i => pat.isPrefixOf (hay.drop i))

/-- Character list of a string with every character lowercased,
modelling the Python str.lower() (charwise, as for the ASCII data the
program handles). -/
def lowerChars (s : String) : List Char := s.data.map Char.toLower

/-- Case-insensitive substring test: pat.lower() in hay.lower() in the
Python source (app.py line 43); also models the pandas
str.contains(pat, case=False) used by merchant search (line 118) for
patterns that, like merchant names, contain no regex metacharacter. -/
def strContainsCI (hay pat : String) : Bool :=
  listContains (lowerChars hay) (lowerChars pat)

/-- CATEGORY_RULES of app.py lines 29-39, in declaration order (Python
dicts preserve insertion order). -/
def CATEGORY_RULES : List (String × String) :=
  [("Starbucks", "Coffee"),
   ("McDonald", "Fast Food"),
   ("Uber", "Transportation"),
   ("Lyft", "Transportation"),
   ("Amazon", "Shopping"),
   ("Target", "Shopping"),
   ("Costco", "Groceries"),
   ("Walmart", "Shopping")]

/-- The for loop of categorize (app.py lines 42-44): first rule whose
keyword occurs case-insensitively in the description wins. -/
def firstCategory (d : String) : List (String × String) → Option String
  | [] => none
  | r :: rs => if strContainsCI d r.1 then some r.2 else firstCategory d rs

/-- categorize of app.py lines 41-45: first-match keyword category,
default Other. -/
def categorize (d : String) : String :=
  (firstCategory d CATEGORY_RULES).getD "Other"

/-- Value of the two-digit decimal number written with characters a
and b. -/
def digitPair (a b : Char) : Nat := (a.toNat - 48) * 10 + (b.toNat - 48)

/-- Shape test for ISO YYYY-MM-DD date strings. -/
def isIsoDate (s : String) : Bool :=
  match s.data with
  | [y1, y2, y3, y4, h1, m1, m2, h2, d1, d2] =>
    y1.isDigit && y2.isDigit && y3.isDigit && y4.isDigit &&
    h1 == '-' && h2 == '-' &&
    m1.isDigit && m2.isDigit && d1.isDigit && d2.isDigit &&
    decide (1 ≤ digitPair m1 m2) && decide (digitPair m1 m2 ≤ 12) &&
    decide (1 ≤ digitPair d1 d2) && decide (digitPair d1 d2 ≤ 31)
  | _ => false

/-- Models pd.to_datetime(s, errors=coerce) followed by
dt.strftime with format %Y-%m-%d (app.py line 56), restricted to the
ISO YYYY-MM-DD inputs the program works with: a well-formed ISO date
normalizes to itself, anything else is treated as unparseable and
becomes null (NaT). -/
def parseDate (s : String) : Option String :=
  if isIsoDate s then some s else none

/-- Month key of a transaction: pd.to_datetime(date, errors=coerce)
followed by dt.to_period(M) (app.py lines 91, 120, 127), rendered as
the YYYY-MM prefix of the normalized date; none (NaT) when the date is
null or unparseable.  Rows with a none month are dropped by every
pandas groupby. -/
def monthOf (t : Txn) : Option String :=
  t.date.bind (fun d => (parseDate d).map (fun p => p.take 7))

/-- Row of an uploaded CSV as pd.read_csv presents it to
add_transactions: a blank Category cell is read as NaN, modelled as
none; Date and Description cells are text; Amount is numeric
(integer currency units, as for Txn). -/
structure RawRow where
  date : String
  description : String
  category : Option String
  amount : ℤ
deriving DecidableEq

/-- An uploaded file for add_transactions.  The hasCategory flag
records whether the Category column is present in the file; when it is
missing, app.py line 53 synthesizes the column with the blank string
for every row.  (The claims under study always have the Date,
Description and Amount columns present, so only the Category column
carries a presence flag here.) -/
structure UploadedFile where
  hasCategory : Bool
  rows : List RawRow
deriving DecidableEq

/-- Normalization of one row by add_transactions (app.py lines 48-58):
the date is parsed (unparseable becomes null), and the category is
df.Category.fillna(df.Description.apply(categorize)): fillna replaces
only NaN (none) cells, so a synthesized blank-string column from a
missing Category header is kept verbatim.  The id is assigned by the
store on insertion. -/
def normalizeRow (f : UploadedFile) (nid : Nat) (r : RawRow) : Txn :=
  { id := nid
    date := parseDate r.date
    description := r.description
    category :=
      match (if f.hasCategory then r.category else some "") with
      | some c => c
      | none => categorize r.description
    amount := r.amount }

/-- add_transactions (app.py lines 48-58): normalizes the batch and
appends it to the transactions table with to_sql(if_exists=append);
SQLite assigns consecutive ids continuing from the current row
count. -/
def addTransactions (f : UploadedFile) (s : Store) : Store :=
  { s with
    txns := s.txns ++
      f.rows.enum.map (fun p => normalizeRow f (s.txns.length + 1 + p.1) p.2) }

/-- get_transactions (app.py lines 60-62): SELECT * FROM transactions,
in rowid order. -/
def getTransactions (s : Store) : List Txn := s.txns

/-- get_removed_merchants (app.py lines 64-66). -/
def getRemovedMerchants (s : Store) : List String := s.removed

/-- remove_merchant (app.py lines 68-70): INSERT OR IGNORE into
removed_merchants, an idempotent set insert. -/
def removeMerchant (m : String) (s : Store) : Store :=
  if s.removed.contains m then s else { s with removed := s.removed ++ [m] }

/-- reinstate_merchants (app.py lines 72-74): DELETE FROM
removed_merchants, clearing the excluded set. -/
def reinstateMerchants (s : Store) : Store := { s with removed := [] }

/-- filtered_data (app.py line 90): the transactions whose description
is not a member of the removed-merchants set (exact string
equality via isin). -/
def filteredData (s : Store) : List Txn :=
  s.txns.filter (fun t => !(s.removed.contains t.description))

/-- Sum of the amounts of the transactions of l whose description
equals m exactly: one group of the groupby(description).amount.sum()
of app.py line 97. -/
def sumFor (l : List Txn) (m : String) : ℤ :=
  ((l.filter (fun t => t.description == m)).map Txn.amount).sum

/-- Distinct description keys of a transaction list. -/
def descKeys (l : List Txn) : List String := (l.map Txn.description).dedup

/-- Lexicographic code-point order on character lists, the order Python
and pandas use on strings (ascending group keys of a groupby). -/
def charsLe : List Char → List Char → Bool
  | [], _ => true
  | _ :: _, [] => false
  | a :: as, b :: bs =>
    if a.toNat < b.toNat then true
    else if b.toNat < a.toNat then false
    else charsLe as bs

/-- Code-point order on strings, used for the ascending key order of
pandas groupby. -/
def strLe (a b : String) : Bool := charsLe a.data b.data

/-- top_merchants (app.py line 97): group the filtered transactions by
description (pandas groupby orders groups by key), sum the amount per
group, sort descending by the summed amount (tie order is
implementation-defined in pandas sort_values), take the first 5. -/
def topMerchants (s : Store) : List (String × ℤ) :=
  let fd := filteredData s
  let groups :=
    (List.insertionSort (fun a b : String => strLe a b = true) (descKeys fd)).map
      (fun m => (m, sumFor fd m))
  (List.insertionSort (fun a b : String × ℤ => b.2 ≤ a.2) groups).take 5

/-- Distinct non-null month keys of a transaction list: the group keys
of a pandas groupby on the month, which drops NaT keys. -/
def monthsOf (l : List Txn) : List String := (l.filterMap monthOf).dedup

/-- Sum of the amounts of the transactions of l falling in month m:
one group of a groupby(month).amount.sum(). -/
def fiberSum (l : List Txn) (m : String) : ℤ :=
  ((l.filter (fun t => monthOf t == some m)).map Txn.amount).sum

/-- monthly_summary (app.py line 108): group the filtered transactions
by month (rows with a null month are dropped by groupby), sum the
amount per month, keys in ascending order. -/
def monthlySummary (s : Store) : List (String × ℤ) :=
  let fd := filteredData s
  (List.insertionSort (fun a b : String => strLe a b = true) (monthsOf fd)).map
    (fun m => (m, fiberSum fd m))

/-- Python re metacharacters: inside a pattern handed to re, any of
these characters has special meaning. -/
def regexMetachars : List Char :=
  ['.', '^', '$', '*', '+', '?', '{', '}', '[', ']', '\\', '|', '(', ')']

/-- A search pattern free of re metacharacters: such a pattern is a
valid regular expression that re matches exactly as the literal
substring.  Every merchant-name search has this form. -/
def regexLiteral (q : String) : Bool :=
  q.data.all (fun c => !(regexMetachars.contains c))

/-- A non-empty pattern consisting solely of opening parentheses: an
unterminated subpattern, on which re raises re.error.  A sound
recognizer for one concrete class of invalid patterns. -/
def regexAllOpenParens (q : String) : Bool :=
  !(q.data.isEmpty) && q.data.all (fun c => c == '(')

/-- Outcome of the search of app.py line 118, whose pattern is a
Python regular expression: the matched row set, or the re.error the
regex engine raises on an invalid pattern, or regex semantics outside
the fragment modelled by this embedding. -/
inductive SearchResult where
  | rows (matched : List Txn)
  | raises
  | unmodelled
deriving DecidableEq

/-- Row set matched by a metacharacter-free search pattern: for such a
pattern the regular expression of str.contains is the literal pattern
itself, and matching is case-insensitive substring containment on
description over the unfiltered full dataset.  The aggregates of lines
119-120 below consume this set; every theorem about them carries the
metacharacter-free hypothesis tying them to merchantSearch. -/
def merchantData (s : Store) (q : String) : List Txn :=
  s.txns.filter (fun t => strContainsCI t.description q)

/-- merchant_data (app.py line 118): pandas str.contains(search,
case=False) interprets the search string as a regular expression.  A
metacharacter-free pattern matches as the literal substring; the
pattern consisting of a single dot matches every description holding a
character other than the newline; a pattern of unmatched opening
parentheses makes re raise re.error; the remaining patterns carry full
regex semantics, which this embedding does not model. -/
def merchantSearch (s : Store) (q : String) : SearchResult :=
  if regexLiteral q then SearchResult.rows (merchantData s q)
  else if q == "." then
    SearchResult.rows
      (s.txns.filter (fun t => t.description.data.any (fun c => !(c == '\n'))))
  else if regexAllOpenParens q then SearchResult.raises
  else SearchResult.unmodelled

/-- total_merchant (app.py line 119): sum of the amounts of the
matched transactions (0 for an empty match), for the matched set of a
metacharacter-free search. -/
def totalMerchant (s : Store) (q : String) : ℤ :=
  ((merchantData s q).map Txn.amount).sum

/-- avg_merchant (app.py line 120): the mean of the per-month sums of
the matched transactions of a metacharacter-free search, none standing
for the NaN that pandas mean() returns on an empty frame (rows with a
null month are dropped by groupby before the mean). -/
def avgMerchant (s : Store) (q : String) : Option ℚ :=
  if (monthsOf (merchantData s q)).isEmpty then none
  else some
    ((((monthsOf (merchantData s q)).map (fiberSum (merchantData s q))).sum : ℚ)
      / ((monthsOf (merchantData s q)).length : ℚ))

/-- Columns of the frame written by the export button (app.py line
148): filtered_data carries the five columns of SELECT * FROM
transactions plus the Month column added at line 91. -/
def exportColumns : List String :=
  ["id", "date", "description", "category", "amount", "Month"]

/-- Rows of the exported CSV: the filtered view, each transaction
paired with its derived Month value. -/
def exportData (s : Store) : List (Txn × Option String) :=
  (filteredData s).map (fun t => (t, monthOf t))

/-- The empty database, as created on first run. -/
def emptyStore : Store := { txns := [], removed := [] }

/-- First-match characterization of the categorization loop: when rule i
matches and no earlier rule does, the loop returns the label of rule i. -/
theorem firstCategory_first (d : String) (rules : List (String × String)) (i : Nat)
    (hi : i < rules.length)
    (hm : strContainsCI d (rules.get ⟨i, hi⟩).1 = true)
    (hb : ∀ j (hj : j < rules.length), j < i → strContainsCI d (rules.get ⟨j, hj⟩).1 = false) :
    firstCategory d rules = some (rules.get ⟨i, hi⟩).2 := by
  induction rules generalizing i with
  | nil => cases hi
  | cons r rs ih =>
    cases i with
    | zero =>
      simp only [List.get] at hm ⊢
      simp [firstCategory, hm]
    | succ n =>
      have h0 : strContainsCI d r.1 = false := hb 0 (by omega) (by omega)
      have hrec := ih n (Nat.lt_of_succ_lt_succ hi) hm
        (fun j hj hlt => hb (j + 1) (by omega) (by omega))
      simp only [List.get] at hrec ⊢
      simp [firstCategory, h0, hrec]

/-- When no rule matches, the categorization loop falls through. -/
theorem firstCategory_none (d : String) (rules : List (String × String))
    (h : ∀ r ∈ rules, strContainsCI d r.1 = false) :
    firstCategory d rules = none := by
  induction rules with
  | nil => rfl
  | cons r rs ih =>
    have h0 := h r (by simp)
    simp [firstCategory, h0, ih (fun x hx => h x (by simp [hx]))]

/-- Claim C1: for every description containing some configured keyword as a
case-insensitive substring, categorize returns the category mapped to the
first such rule in declaration order; for every description containing no
configured keyword, categorize returns Other. -/
theorem categorize_first_match (d : String) :
    (∀ i (hi : i < CATEGORY_RULES.length),
       strContainsCI d (CATEGORY_RULES.get ⟨i, hi⟩).1 = true →
       (∀ j (hj : j < CATEGORY_RULES.length), j < i →
          strContainsCI d (CATEGORY_RULES.get ⟨j, hj⟩).1 = false) →
       categorize d = (CATEGORY_RULES.get ⟨i, hi⟩).2)
    ∧ ((∀ r ∈ CATEGORY_RULES, strContainsCI d r.1 = false) → categorize d = "Other") := by
  constructor
  · intro i hi hm hb
    unfold categorize
    rw [firstCategory_first d CATEGORY_RULES i hi hm hb]
    rfl
  · intro h
    unfold categorize
    rw [firstCategory_none d CATEGORY_RULES h]
    rfl

/-- Witness for C1: the description Starbucks Downtown matches rule 0 and
gets its label Coffee, and a description matching no keyword gets Other. -/
theorem categorize_first_match_witness :
    categorize "Starbucks Downtown" = (CATEGORY_RULES.get ⟨0, by decide⟩).2 ∧
    categorize "Quantum Bakery" = "Other" :=
  ⟨(categorize_first_match "Starbucks Downtown").1 0 (by decide) (by decide)
     (fun j _ hlt => absurd hlt (Nat.not_lt_zero j)),
   (categorize_first_match "Quantum Bakery").2 (by decide)⟩

/-- Claim C3: the filtered view keeps exactly the transactions whose
description is not an exact member of the excluded set, and after
reinstating (clearing the excluded set) it contains every transaction. -/
theorem filtered_excludes_exactly (s : Store) (t : Txn) :
    (t ∈ filteredData s ↔ t ∈ s.txns ∧ s.removed.contains t.description = false)
    ∧ filteredData (reinstateMerchants s) = s.txns := by
  constructor
  · simp [filteredData, List.mem_filter]
  · simp [filteredData, reinstateMerchants]

/-- Witness for C3 at a store holding one Costco transaction with Costco
excluded. -/
theorem filtered_excludes_exactly_witness :
    (({ id := 1, date := some "2024-03-05", description := "Costco",
        category := "Groceries", amount := 100 } : Txn)
        ∈ filteredData { txns := [{ id := 1, date := some "2024-03-05",
                                    description := "Costco", category := "Groceries",
                                    amount := 100 }], removed := ["Costco"] }
      ↔ ({ id := 1, date := some "2024-03-05", description := "Costco",
           category := "Groceries", amount := 100 } : Txn)
          ∈ ({ txns := [{ id := 1, date := some "2024-03-05", description := "Costco",
                          category := "Groceries", amount := 100 }],
               removed := ["Costco"] } : Store).txns
        ∧ (["Costco"] : List String).contains "Costco" = false)
    ∧ filteredData (reinstateMerchants { txns := [{ id := 1, date := some "2024-03-05",
                                                    description := "Costco",
                                                    category := "Groceries",
                                                    amount := 100 }],
                                         removed := ["Costco"] })
        = [{ id := 1, date := some "2024-03-05", description := "Costco",
             category := "Groceries", amount := 100 }] :=
  filtered_excludes_exactly _ _

/-- Claim C7: ingestion is append-only with no deduplication: reading back
after ingesting a batch yields the prior count plus the batch size, and
re-ingesting the same file adds its rows again. -/
theorem ingest_append_count (f : UploadedFile) (s : Store) :
    (getTransactions (addTransactions f s)).length
      = (getTransactions s).length + f.rows.length
    ∧ (getTransactions (addTransactions f (addTransactions f s))).length
      = (getTransactions s).length + 2 * f.rows.length := by
  constructor
  · simp [getTransactions, addTransactions, List.enum_length]
  · simp [getTransactions, addTransactions, List.enum_length]
    ring

/-- Store holding one Walmart transaction, the witness and
counterexample input for C9. -/
def c9Store : Store :=
  { txns := [{ id := 1, date := some "2024-01-02", description := "Walmart",
               category := "Shopping", amount := 25 }],
    removed := [] }

/-- Claim C9 (amended): a metacharacter-free search matching no stored
transaction yields the empty matched row set, a reported total of 0
(sum of the empty set) and an average-per-month that degrades to the
NaN value (modelled none) instead of raising; a search string that is
an invalid regular expression raises re.error at the match step
instead (see the counterexample). -/
theorem empty_search_graceful (s : Store) (q : String)
    (hq : regexLiteral q = true) (h : merchantData s q = []) :
    merchantSearch s q = SearchResult.rows []
    ∧ totalMerchant s q = 0 ∧ avgMerchant s q = none := by
  refine ⟨?_, ?_, ?_⟩
  · simp [merchantSearch, hq, h]
  · simp [totalMerchant, h]
  · simp [avgMerchant, h, monthsOf]

/-- Witness for C9: searching zzz in a store holding one Walmart
transaction matches nothing, reports total 0 and a none average. -/
theorem empty_search_graceful_witness :
    merchantSearch c9Store "zzz" = SearchResult.rows []
    ∧ totalMerchant c9Store "zzz" = 0
    ∧ avgMerchant c9Store "zzz" = none :=
  empty_search_graceful c9Store "zzz" (by decide) (by decide)

/-- Counterexample to claim C9 as stated: the search string consisting
of one opening parenthesis is contained as a substring in no stored
description, yet line 118 raises re.error on it (unterminated
subpattern) before any total or average is computed, instead of
degrading gracefully. -/
theorem empty_search_raises_cex :
    merchantSearch c9Store "(" = SearchResult.raises
    ∧ merchantData c9Store "(" = []
    ∧ c9Store.txns.all (fun t => !(strContainsCI t.description "(")) = true :=
  ⟨by decide, by decide, by decide⟩

/-- Store witnessing claim C10: one transaction described Starbucks
Downtown and an empty excluded set. -/
def c10Store : Store :=
  { txns := [{ id := 1, date := some "2024-03-05",
               description := "Starbucks Downtown", category := "Coffee",
               amount := 450 }],
    removed := [] }

/-- Claim C10: there is a stored transaction set and a string (here the
store c10Store and the string Starbucks) whose search matches a non-empty
set of transactions, yet excluding that very string removes none of them
from the filtered view: search matches by case-insensitive substring while
exclusion filters by exact description equality. -/
theorem search_exclusion_mismatch :
    merchantData c10Store "Starbucks" ≠ [] ∧
    (merchantData c10Store "Starbucks").all
      (fun t => decide (t ∈ filteredData (removeMerchant "Starbucks" c10Store))) = true :=
  ⟨by decide, by decide⟩

/-- Sum over a month list of an indicator that never fires. -/
theorem sum_map_ite_zero (ms : List String) (m0 : String) (a : ℤ)
    (h : m0 ∉ ms) : (ms.map (fun m => if m0 = m then a else 0)).sum = 0 := by
  induction ms with
  | nil => rfl
  | cons x xs ih =>
    simp only [List.map_cons, List.sum_cons]
    rw [if_neg (by rintro rfl; exact h (List.mem_cons_self _ _)),
      ih (fun hx => h (List.mem_cons_of_mem _ hx))]
    ring

/-- Sum over a duplicate-free month list of an indicator firing exactly
at the member m0. -/
theorem sum_map_ite_single (ms : List String) (m0 : String) (a : ℤ)
    (hnd : ms.Nodup) (hm : m0 ∈ ms) :
    (ms.map (fun m => if m0 = m then a else 0)).sum = a := by
  induction ms with
  | nil => cases hm
  | cons x xs ih =>
    rcases List.nodup_cons.mp hnd with ⟨hx, hxs⟩
    simp only [List.map_cons, List.sum_cons]
    rcases List.mem_cons.mp hm with h | h
    · subst h
      rw [if_pos rfl, sum_map_ite_zero xs m0 a hx]
      ring
    · rw [if_neg (by rintro rfl; exact hx h), ih hxs h]
      ring

/-- Partition of an amount sum over month fibers: over a duplicate-free
list of months covering every non-null month of l, the per-month group
sums add up to the plain sum over the rows of l with a non-null month
(a pandas groupby drops the rows whose key is NaT). -/
theorem sum_fiberSum (l : List Txn) (ms : List String) (hnd : ms.Nodup)
    (hcov : ∀ t ∈ l, ∀ m, monthOf t = some m → m ∈ ms) :
    (ms.map (fiberSum l)).sum
      = ((l.filter (fun t => (monthOf t).isSome)).map Txn.amount).sum := by
  induction l with
  | nil =>
    have h0 : ∀ x ∈ ms.map (fiberSum ([] : List Txn)), x = 0 := by
      intro x hx
      rcases List.mem_map.mp hx with ⟨m, _, rfl⟩
      rfl
    simp [List.sum_eq_zero h0]
  | cons t l ih =>
    have hstep : ∀ m ∈ ms, fiberSum (t :: l) m
        = (if monthOf t = some m then t.amount else 0) + fiberSum l m := by
      intro m _
      by_cases h : monthOf t = some m
      · simp [fiberSum, List.filter_cons, h]
      · simp [fiberSum, List.filter_cons, h]
    rw [List.map_congr_left hstep, List.sum_map_add]
    have ihx := ih (fun t' ht' m hm => hcov t' (List.mem_cons_of_mem _ ht') m hm)
    cases hmt : monthOf t with
    | none =>
      have hzs : ∀ x ∈ ms.map (fun m => if (none : Option String) = some m
          then t.amount else 0), x = (0 : ℤ) := by
        intro x hx
        rcases List.mem_map.mp hx with ⟨m, hm, rfl⟩
        exact if_neg (fun h => Option.noConfusion h)
      rw [List.sum_eq_zero hzs, ihx]
      simp [List.filter_cons, hmt]
    | some m0 =>
      have hmem : m0 ∈ ms := hcov t (List.mem_cons_self _ _) m0 hmt
      have hone : (ms.map (fun m => if some m0 = some m then t.amount else 0)).sum
          = t.amount := by
        simp only [Option.some.injEq]
        exact sum_map_ite_single ms m0 t.amount hnd hmem
      rw [hone, ihx]
      simp [List.filter_cons, hmt]

/-- Claim C5 (amended): the monthly-trend bucket totals sum to the sum of
amounts over the filtered transactions with a parseable date; when every
filtered transaction has a parseable date this is the full unbucketed sum
(transactions with a null date are dropped from the buckets by groupby). -/
theorem monthly_bucket_sum (s : Store) :
    ((monthlySummary s).map Prod.snd).sum
      = (((filteredData s).filter (fun t => (monthOf t).isSome)).map Txn.amount).sum
    ∧ ((∀ t ∈ filteredData s, (monthOf t).isSome = true) →
        ((monthlySummary s).map Prod.snd).sum
          = ((filteredData s).map Txn.amount).sum) := by
  have hperm : List.Perm
      (List.insertionSort (fun a b : String => strLe a b = true) (monthsOf (filteredData s)))
      (monthsOf (filteredData s)) :=
    List.perm_insertionSort _ _
  have h1 : ((monthlySummary s).map Prod.snd).sum
      = ((monthsOf (filteredData s)).map (fiberSum (filteredData s))).sum := by
    simp only [monthlySummary, List.map_map]
    have hcomp : (Prod.snd ∘ fun m => (m, fiberSum (filteredData s) m))
        = fiberSum (filteredData s) := rfl
    rw [hcomp]
    exact (hperm.map (fiberSum (filteredData s))).sum_eq
  have h2 := sum_fiberSum (filteredData s) (monthsOf (filteredData s))
    (List.nodup_dedup _)
    (fun t ht m hm => List.mem_dedup.mpr (List.mem_filterMap.mpr ⟨t, ht, hm⟩))
  refine ⟨h1.trans h2, fun hall => ?_⟩
  rw [h1, h2, List.filter_eq_self.mpr hall]

/-- Store with two dated transactions in distinct months, a witness
input for C5. -/
def c5wStore : Store :=
  { txns := [{ id := 1, date := some "2024-03-05",
               description := "Starbucks Downtown", category := "Coffee",
               amount := 450 },
             { id := 2, date := some "2024-04-11",
               description := "Walmart", category := "Shopping",
               amount := 2599 }],
    removed := [] }

/-- Witness for C5 at a store whose filtered transactions all carry
parseable dates: bucket totals match the grand total. -/
theorem monthly_bucket_sum_witness :
    ((monthlySummary c5wStore).map Prod.snd).sum
      = ((filteredData c5wStore).map Txn.amount).sum :=
  (monthly_bucket_sum c5wStore).2 (by decide)

/-- Store with a single transaction whose date is null, refuting the
unamended claim C5. -/
def c5Store : Store :=
  { txns := [{ id := 1, date := none, description := "Mystery Shop",
               category := "Other", amount := 700 }],
    removed := [] }

/-- Counterexample to claim C5 as stated: with one filtered transaction
of amount 700 and a null date, the monthly buckets sum to 0 while the
unbucketed sum over the same filtered set is 700. -/
theorem monthly_bucket_sum_cex :
    ((monthlySummary c5Store).map Prod.snd).sum
        ≠ ((filteredData c5Store).map Txn.amount).sum
    ∧ ((monthlySummary c5Store).map Prod.snd).sum = 0
    ∧ ((filteredData c5Store).map Txn.amount).sum = 700 :=
  ⟨by decide, by decide, by decide⟩

/-- Claim C4 (amended): for every metacharacter-free search string (on
such a string the regular expression of str.contains is the literal
pattern; the dot pattern, for instance, instead matches every
non-empty description), merchant search selects by case-insensitive
substring over the unfiltered dataset; the reported total is the sum
of the matched amounts; the reported average-per-month is the matched
dated sum divided by the number of distinct months, which equals the
total divided by the distinct-month count whenever every matched
transaction has a parseable date (matched rows with a null date are
included in the total but dropped from the average by groupby). -/
theorem merchant_search_stats (s : Store) (q : String)
    (hq : regexLiteral q = true) :
    merchantSearch s q = SearchResult.rows (merchantData s q)
    ∧ (∀ t, t ∈ merchantData s q ↔ t ∈ s.txns ∧ strContainsCI t.description q = true)
    ∧ totalMerchant s q = ((merchantData s q).map Txn.amount).sum
    ∧ ((∀ t ∈ merchantData s q, (monthOf t).isSome = true) →
        merchantData s q ≠ [] →
        avgMerchant s q
          = some ((totalMerchant s q : ℚ)
              / ((monthsOf (merchantData s q)).length : ℚ))) := by
  refine ⟨by simp [merchantSearch, hq], ?_, rfl, ?_⟩
  · intro t
    simp [merchantData, List.mem_filter]
  · intro hall hne
    have hsum := sum_fiberSum (merchantData s q) (monthsOf (merchantData s q))
      (List.nodup_dedup _)
      (fun t ht m hm => List.mem_dedup.mpr (List.mem_filterMap.mpr ⟨t, ht, hm⟩))
    rw [List.filter_eq_self.mpr hall] at hsum
    have hne2 : monthsOf (merchantData s q) ≠ [] := by
      rcases List.exists_mem_of_ne_nil _ hne with ⟨t, ht⟩
      rcases Option.isSome_iff_exists.mp (hall t ht) with ⟨m, hm⟩
      exact List.ne_nil_of_mem
        (List.mem_dedup.mpr (List.mem_filterMap.mpr ⟨t, ht, hm⟩))
    have hEmp : (monthsOf (merchantData s q)).isEmpty = false := by
      cases hE : monthsOf (merchantData s q) with
      | nil => exact absurd hE hne2
      | cons a as => rfl
    have hval : avgMerchant s q
        = some ((((monthsOf (merchantData s q)).map
              (fiberSum (merchantData s q))).sum : ℚ)
            / ((monthsOf (merchantData s q)).length : ℚ)) := by
      unfold avgMerchant
      rw [hEmp]
      rfl
    rw [hval, hsum]
    rfl

/-- Store with two Starbucks transactions of 450 and 550 units in two
distinct months, the witness input for C4. -/
def c4wStore : Store :=
  { txns := [{ id := 1, date := some "2024-03-05",
               description := "Starbucks Downtown", category := "Coffee",
               amount := 450 },
             { id := 2, date := some "2024-04-11",
               description := "Starbucks Airport", category := "Coffee",
               amount := 550 }],
    removed := [] }

/-- Witness for C4, the example of the spec scaled to integer currency
units: two matches of 450 and 550 in different months yield total 1000
and average-per-month 500. -/
theorem merchant_search_stats_witness :
    totalMerchant c4wStore "Starbucks" = 1000 ∧
    avgMerchant c4wStore "Starbucks" = some 500 := by
  have h := (merchant_search_stats c4wStore "Starbucks" (by decide)).2.2.2
    (by decide) (by decide)
  refine ⟨by decide, ?_⟩
  rw [h]
  have h1 : totalMerchant c4wStore "Starbucks" = 1000 := by decide
  have h2 : (monthsOf (merchantData c4wStore "Starbucks")).length = 2 := by decide
  rw [h1, h2]
  norm_num

/-- Store with one dated and one null-dated Starbucks transaction,
refuting the unamended claim C4. -/
def c4Store : Store :=
  { txns := [{ id := 1, date := some "2024-03-05",
               description := "Starbucks Downtown", category := "Coffee",
               amount := 450 },
             { id := 2, date := none, description := "Starbucks Airport",
               category := "Coffee", amount := 10000 }],
    removed := [] }

/-- Counterexample to claim C4 as stated, in its two universal
clauses.  Search selection: on c4Store the dot pattern matches both
rows (the regex dot matches any character) although neither
description contains a dot as a substring, so search is not substring
selection for every search string.  Average: the search for Starbucks
matches both rows, the total is 10450 and the matched set spans one
distinct month, but the reported average is 450 (the null-dated row is
dropped from the per-month grouping), not 10450 / 1. -/
theorem merchant_search_cex :
    merchantSearch c4Store "." = SearchResult.rows c4Store.txns
    ∧ c4Store.txns ≠ []
    ∧ c4Store.txns.all (fun t => !(strContainsCI t.description ".")) = true
    ∧ avgMerchant c4Store "Starbucks"
        ≠ some ((totalMerchant c4Store "Starbucks" : ℚ)
            / ((monthsOf (merchantData c4Store "Starbucks")).length : ℚ))
    ∧ avgMerchant c4Store "Starbucks" = some 450
    ∧ totalMerchant c4Store "Starbucks" = 10450
    ∧ (monthsOf (merchantData c4Store "Starbucks")).length = 1 := by
  have h1 : monthsOf (merchantData c4Store "Starbucks") = ["2024-03"] := by decide
  have h2 : ((monthsOf (merchantData c4Store "Starbucks")).map
      (fiberSum (merchantData c4Store "Starbucks"))).sum = 450 := by decide
  have hA : avgMerchant c4Store "Starbucks" = some 450 := by
    simp only [avgMerchant]
    rw [h2, h1]
    norm_num
  have hT : totalMerchant c4Store "Starbucks" = 10450 := by decide
  have hL : (monthsOf (merchantData c4Store "Starbucks")).length = 1 := by
    rw [h1]
    rfl
  refine ⟨by decide, by decide, by decide, ?_, hA, hT, hL⟩
  rw [hA, hT, hL]
  intro hEq
  rw [Option.some_inj] at hEq
  norm_num at hEq

instance : IsTotal (String × ℤ) (fun a b => b.2 ≤ a.2) :=
  ⟨fun a b => le_total b.2 a.2⟩

instance : IsTrans (String × ℤ) (fun a b => b.2 ≤ a.2) :=
  ⟨fun _ _ _ hab hbc => le_trans hbc hab⟩

/-- Inserting a merchant into the removed set really records it. -/
theorem mem_removed_removeMerchant (m : String) (s : Store) :
    m ∈ (removeMerchant m s).removed := by
  unfold removeMerchant
  by_cases h : s.removed.contains m = true
  · rw [if_pos h]
    simpa using h
  · rw [if_neg h]
    simp

/-- Every row of the top-merchants table is a description key of the
filtered view paired with its exact group sum. -/
theorem topMerchants_mem_key (s : Store) (p : String × ℤ)
    (hp : p ∈ topMerchants s) :
    p.1 ∈ descKeys (filteredData s) ∧ p.2 = sumFor (filteredData s) p.1 := by
  simp only [topMerchants] at hp
  have hp1 := List.take_subset _ _ hp
  have hp2 := (List.perm_insertionSort
    (fun a b : String × ℤ => b.2 ≤ a.2) _).mem_iff.mp hp1
  rcases List.mem_map.mp hp2 with ⟨k, hk, rfl⟩
  exact ⟨(List.perm_insertionSort (fun a b : String => strLe a b = true) _).mem_iff.mp hk, rfl⟩

/-- Claim C6: the top-merchants aggregate groups the filtered
transactions by description, sums the amount per group, is sorted
descending by the summed amount, and has at most the first 5 groups;
after excluding a merchant, no row for that merchant appears in it. -/
theorem top_merchants_spec (s : Store) (m : String) :
    (∀ p ∈ topMerchants s,
        p.1 ∈ descKeys (filteredData s) ∧ p.2 = sumFor (filteredData s) p.1)
    ∧ List.Sorted (fun a b : String × ℤ => b.2 ≤ a.2) (topMerchants s)
    ∧ (topMerchants s).length ≤ 5
    ∧ (∀ p ∈ topMerchants (removeMerchant m s), p.1 ≠ m) := by
  refine ⟨fun p hp => topMerchants_mem_key s p hp, ?_, ?_, ?_⟩
  · have hs := List.sorted_insertionSort (fun a b : String × ℤ => b.2 ≤ a.2)
      ((List.insertionSort (fun a b : String => strLe a b = true)
          (descKeys (filteredData s))).map
        (fun k => (k, sumFor (filteredData s) k)))
    simp only [topMerchants]
    exact List.Pairwise.sublist (List.take_sublist _ _) hs
  · simp only [topMerchants]
    exact List.length_take_le _ _
  · intro p hp hEq
    have h1 := (topMerchants_mem_key (removeMerchant m s) p hp).1
    simp only [descKeys] at h1
    rw [List.mem_dedup] at h1
    rcases List.mem_map.mp h1 with ⟨t, ht, hdesc⟩
    simp only [filteredData, List.mem_filter] at ht
    have hfalse : (removeMerchant m s).removed.contains t.description = false := by
      simpa using ht.2
    have htrue : (removeMerchant m s).removed.contains t.description = true := by
      rw [hdesc, hEq]
      simpa using mem_removed_removeMerchant m s
    exact Bool.noConfusion (htrue.symm.trans hfalse)

/-- Store with a Costco transaction holding the largest sum and a
smaller Starbucks transaction, the witness input for C6. -/
def c6Store : Store :=
  { txns := [{ id := 1, date := some "2024-03-05", description := "Costco",
               category := "Groceries", amount := 10000 },
             { id := 2, date := some "2024-03-06",
               description := "Starbucks Downtown", category := "Coffee",
               amount := 450 }],
    removed := [] }

/-- Witness for C6: in c6Store the Costco row of the top-5 table carries
its exact group sum, and after excluding Costco the remaining top row is
not Costco even though Costco previously had the largest sum. -/
theorem top_merchants_spec_witness :
    (("Costco", (10000 : ℤ)).2 = sumFor (filteredData c6Store) ("Costco", (10000 : ℤ)).1)
    ∧ (("Starbucks Downtown", (450 : ℤ)).1 ≠ "Costco") :=
  ⟨((top_merchants_spec c6Store "Costco").1 ("Costco", 10000) (by decide)).2,
   (top_merchants_spec c6Store "Costco").2.2.2 ("Starbucks Downtown", 450) (by decide)⟩

/-- Uploaded file with no Category column whose single row describes a
Starbucks purchase, refuting the unamended claim C2. -/
def c2File : UploadedFile :=
  { hasCategory := false,
    rows := [{ date := "2024-03-05", description := "Starbucks Downtown",
               category := none, amount := 450 }] }

/-- Counterexample to claim C2 as stated: ingesting a row whose Category
cell is absent (the file has no Category column) stores the synthesized
blank string, not categorize(description): fillna only replaces NaN, and
the synthesized blank is the empty string, not NaN. -/
theorem ingest_absent_column_cex :
    ((addTransactions c2File emptyStore).txns.map Txn.category)
        ≠ [categorize "Starbucks Downtown"]
    ∧ ((addTransactions c2File emptyStore).txns.map Txn.category) = [""]
    ∧ categorize "Starbucks Downtown" = "Coffee" :=
  ⟨by decide, by decide, by decide⟩

/-- Claim C2 (amended): ingestion stores each row with its parsed date,
verbatim description and amount, and a category that is the verbatim
source value when present, categorize(description) when the cell is
blank (NaN) in a present Category column, and the synthesized blank
string when the Category column is absent from the file. -/
theorem ingest_category_fill (f : UploadedFile) (s : Store) (r : RawRow)
    (hr : r ∈ f.rows) :
    ∃ t ∈ (addTransactions f s).txns,
      t.date = parseDate r.date ∧ t.description = r.description ∧
      t.amount = r.amount ∧
      t.category = (if f.hasCategory then
          (match r.category with
           | some c => c
           | none => categorize r.description)
        else "") := by
  rcases List.mem_iff_get.mp hr with ⟨⟨i, hi⟩, hget⟩
  have hei : i < f.rows.enum.length := by simpa [List.enum_length] using hi
  have henum : f.rows.enum.get ⟨i, hei⟩ = (i, r) := by
    rw [List.get_eq_getElem, List.getElem_enum]
    rw [List.get_eq_getElem] at hget
    rw [hget]
  refine ⟨normalizeRow f (s.txns.length + 1 + i) r, ?_, rfl, rfl, rfl, ?_⟩
  · unfold addTransactions
    apply List.mem_append_right
    apply List.mem_map.mpr
    refine ⟨(i, r), ?_, rfl⟩
    rw [← henum]
    exact List.get_mem _ _ _
  · unfold normalizeRow
    cases f.hasCategory
    · rfl
    · cases r.category <;> rfl

/-- Uploaded file with a present Category column whose single row has a
blank (NaN) category, matching the ingestion example of the spec with
the amount in integer currency units. -/
def c2wFile : UploadedFile :=
  { hasCategory := true,
    rows := [{ date := "2024-03-05", description := "Starbucks Downtown",
               category := none, amount := 450 }] }

/-- Witness for C2: ingesting the example row with a blank category cell
stores date 2024-03-05 and category Coffee. -/
theorem ingest_category_fill_witness :
    ∃ t ∈ (addTransactions c2wFile emptyStore).txns,
      t.date = some "2024-03-05" ∧ t.description = "Starbucks Downtown" ∧
      t.amount = 450 ∧ t.category = "Coffee" := by
  have h := ingest_category_fill c2wFile emptyStore
    { date := "2024-03-05", description := "Starbucks Downtown",
      category := none, amount := 450 } (by decide)
  simpa using h

/-- Counterexample to claim C8 as stated: the exported frame does not
carry the four logical input columns; it carries six columns, the five
stored ones (id included) plus the derived Month column added before
rendering. -/
theorem export_columns_cex :
    exportColumns ≠ ["Date", "Description", "Category", "Amount"]
    ∧ exportColumns.length = 6
    ∧ "Month" ∈ exportColumns ∧ "id" ∈ exportColumns :=
  ⟨by decide, by decide, by decide, by decide⟩

/-- Claim C8 (amended): the exported CSV holds exactly the rows of the
currently filtered transaction view, each row carrying the four logical
columns among the six exported ones (id, date, description, category,
amount plus the derived Month column). -/
theorem export_contains_filtered (s : Store) :
    (exportData s).map Prod.fst = filteredData s
    ∧ (∀ p ∈ exportData s, p.1 ∈ filteredData s ∧ p.2 = monthOf p.1)
    ∧ exportColumns.length = 6 := by
  refine ⟨?_, ?_, rfl⟩
  · have hcomp : (Prod.fst ∘ fun t : Txn => (t, monthOf t)) = id := rfl
    simp only [exportData, List.map_map, hcomp, List.map_id]
  · intro p hp
    simp only [exportData] at hp
    rcases List.mem_map.mp hp with ⟨t, ht, rfl⟩
    exact ⟨ht, rfl⟩

/-- Transaction used as the witness input for C8. -/
def c8Txn : Txn :=
  { id := 1, date := some "2024-03-05", description := "Starbucks Downtown",
    category := "Coffee", amount := 450 }

/-- Store used as the witness input for C8. -/
def c8Store : Store := { txns := [c8Txn], removed := [] }

/-- Witness for C8 at a one-transaction store: the export pairs the
filtered row with its derived month. -/
theorem export_contains_filtered_witness :
    ((c8Txn, some "2024-03") : Txn × Option String).2 = monthOf c8Txn :=
  (((export_contains_filtered c8Store).2.1 (c8Txn, some "2024-03")) (by decide)).2
